import Mathlib

/-!
Shallow embedding of the core of the vine repository: `src/core/vm/Memory.ts`
and `src/core/asm/assemble.ts`. The files `ALU.ts` and `Instruction.ts` are
imported by those sources but are not among the available files; every
definition taken from them is modelled from the specification and marked as
such in its doc comment.

A 9-trit balanced-ternary word (`Tryte` in the sources) is represented here
by its signed integer value in [-9841, 9841]; the codec functions `t2n` and
`n2t` are then the identity, which is exactly the mutual-inverse property
the specification assigns to them. A `Tryte` in the TypeScript sources is an
array value and is therefore always truthy; `null`-or-value unions become
`Option`, and thrown exceptions become `Except String`.
-/

namespace Vine

/-- Integer-value representation of a 9-trit balanced-ternary word. -/
abbrev Tryte := Int

/-- Modelled from the spec: `TRYTE_NUM_VALUES` (3^9 = 19683 distinct word
values), exported by `ALU.ts` and used by `Memory.ts` as the cell count. -/
def TRYTE_NUM_VALUES : Nat := 19683

/-- `Memory` from `Memory.ts`: a backing `Int32Array` represented by its
length together with its contents (index ↦ stored value). JS typed arrays
silently discard out-of-bounds writes and yield `undefined` (here `none`)
for out-of-bounds reads; the source performs no range check of its own. -/
structure Memory where
  blockLength : Nat
  block : Nat → Int

/-- The `Memory` constructor: `new Memory(size)`. The `size` parameter is
ignored by the body, which always allocates `TRYTE_NUM_VALUES` zero cells:
`this.block = new Int32Array(TRYTE_NUM_VALUES)`. -/
def Memory.make (size : Nat) : Memory :=
  { blockLength := TRYTE_NUM_VALUES, block := fun _ => 0 }

/-- `new Memory()` with the (ignored) default argument. -/
def Memory.new : Memory := Memory.make TRYTE_NUM_VALUES

/-- `Memory.load(addr)`: `n2t(this.block[t2n(addr) + 9841])`. An index
outside the typed array reads `undefined`, modelled as `none`. -/
def Memory.load (m : Memory) (addr : Int) : Option Int :=
  if 0 ≤ addr + 9841 ∧ addr + 9841 < (m.blockLength : Int) then
    some (m.block (addr + 9841).toNat)
  else none

/-- `Memory.store(value, addr)`: `this.block[t2n(addr) + 9841] = t2n(value)`.
An out-of-bounds typed-array write is silently discarded (a no-op); no
exception is ever raised by `store`, so the embedding is total. -/
def Memory.store (m : Memory) (value addr : Int) : Memory :=
  if 0 ≤ addr + 9841 ∧ addr + 9841 < (m.blockLength : Int) then
    { m with block := fun j => if (j : Int) = addr + 9841 then value else m.block j }
  else m

/-! ### String helpers used by `assemble.ts`

JS string methods on the ASCII inputs the assembler handles: `toUpperCase`,
`toLowerCase`, `trim`, `substr(1)`, `split` on newlines, the comment
regex replace (strip from the first `;` to the end of the line), and the
leading-dot test on `line[0]`. -/

def toUpperStr (s : String) : String := String.mk (s.data.map Char.toUpper)

def toLowerStr (s : String) : String := String.mk (s.data.map Char.toLower)

def isSpaceChar (c : Char) : Bool := c = ' ' || c = '\t' || c = '\n' || c = '\r'

def trimStr (s : String) : String :=
  String.mk (((s.data.dropWhile isSpaceChar).reverse.dropWhile isSpaceChar).reverse)

def startsDot (s : String) : Bool :=
  match s.data with
  | [] => false
  | c :: _ => c = '.'

def dropStr (s : String) (n : Nat) : String := String.mk (s.data.drop n)

def splitLinesAux : List Char → List Char → List String
  | [], buf => [String.mk buf.reverse]
  | c :: cs, buf =>
    if c = '\n' then String.mk buf.reverse :: splitLinesAux cs []
    else splitLinesAux cs (c :: buf)

def stripComment (s : String) : String :=
  String.mk (s.data.takeWhile (fun c => c ≠ ';'))

/-- The line filter at the top of `assemble`: split on newlines, strip
comments, trim, drop empty lines. -/
def preprocess (input : String) : List String :=
  ((splitLinesAux input.data []).map (fun line => trimStr (stripComment line))).filter
    (fun line => line ≠ "")

/-! ### Pieces of `ALU.ts` (not among the sources): numeral codec and add -/

/-- Modelled from the spec: `stringToWord` (`s2t` of ALU.ts, used through
`parseImmediateOperand`): a 9-character string over the alphabet -, o, +
(most significant trit first) parses to the word with integer value
Σ trit·3^(8-i); any other input fails (`FormatError`), which the caller
catches and turns into `null` — here `none`. -/
def charToTrit (c : Char) : Option Int :=
  if c = '-' then some (-1) else if c = 'o' then some 0 else if c = '+' then some 1 else none

def s2tAux : List Char → Int → Option Int
  | [], acc => some acc
  | c :: cs, acc =>
    match charToTrit c with
    | none => none
    | some t => s2tAux cs (acc * 3 + t)

def s2t (s : String) : Option Int :=
  if s.data.length = 9 then s2tAux s.data 0 else none

/-- Modelled from the spec: ALU `add` is signed balanced-ternary addition
with wraparound at the ±9841 boundary; the assembler advances its address
cursor with `alu.add(address, n2t(1))`. -/
def aluAdd (a b : Int) : Int := (a + b + 9841).emod 19683 - 9841

/-! ### Pieces of `Instruction.ts` (not among the sources) -/

/-- Modelled from the spec: the three addressing modes. -/
inductive AddressingMode
  | REGISTER_REGISTER
  | SHORT_IMMEDIATE
  | WORD_IMMEDIATE
deriving DecidableEq

/-- The `z` field of a not-yet-assembled instruction: either a full-range
immediate word or a still-unresolved label name (`Tryte | string`). -/
inductive ZOperand
  | imm (value : Int)
  | label (name : String)
deriving DecidableEq

/-- `InstructionLabeled` from Instruction.ts as used by `assemble.ts`:
opcode, addressing mode, operand selectors and optional second operand. -/
structure InstructionLabeled where
  opcode : Int
  addressingMode : AddressingMode
  x : Int
  y : Int
  z : Option ZOperand
deriving DecidableEq

/-- The anonymous `{ opcode, x }` record `parseInstruction` hands to
`unionParseYZ`. -/
structure ProtoInstr where
  opcode : Int
  x : Int

/-- JS truthiness of a `Tryte | string` value: a `Tryte` is an array and
always truthy; a string is truthy iff non-empty. -/
def zTruthy : ZOperand → Bool
  | ZOperand.imm _ => true
  | ZOperand.label s => if s = "" then false else true

/-- JS truthiness of the `z` field (`Tryte | string | null`). -/
def zJsTruthy : Option ZOperand → Bool
  | none => false
  | some z => zTruthy z

/-! ### Operand parsers from `assemble.ts` -/

/-- `parseRegisterOperand`: fixed name table, case-insensitive, mapped to
small signed selectors; `null`/`undefined`/empty operands are falsy. -/
def parseRegisterOperand (operand : Option String) : Option Int :=
  match operand with
  | none => none
  | some op =>
    if op = "" then none
    else if toLowerStr (trimStr op) = "r0" then some (-4)
    else if toLowerStr (trimStr op) = "r1" then some (-3)
    else if toLowerStr (trimStr op) = "r2" then some (-2)
    else if toLowerStr (trimStr op) = "r3" then some (-1)
    else if toLowerStr (trimStr op) = "r4" then some 0
    else if toLowerStr (trimStr op) = "r5" then some 1
    else if toLowerStr (trimStr op) = "r6" then some 2
    else if toLowerStr (trimStr op) = "ra" then some 3
    else if toLowerStr (trimStr op) = "sp" then some 4
    else none

/-- `parseImmediateOperand`: any token the numeral codec can parse. -/
def parseImmediateOperand (operand : Option String) : Option Int :=
  match operand with
  | none => none
  | some op => if op = "" then none else s2t (trimStr op)

/-- `parseAddressOperand`: a token starting with `.` is a label name (the
marker is stripped), anything else must parse as a sign-string word. -/
def parseAddressOperand (operand : Option String) : Option ZOperand :=
  match operand with
  | none => none
  | some op =>
    if op = "" then none
    else if startsDot (trimStr op) then some (ZOperand.label (dropStr (trimStr op) 1))
    else (s2t (trimStr op)).map ZOperand.imm

/-- `isShort` from `assemble.ts`, verbatim: `n > 4 && n < -4`. -/
def isShort (value : Tryte) : Bool := decide (value > 4) && decide (value < -4)

/-- `unionParseYZ`: try the second operand as a register, then as an
immediate (short or word-sized by `isShort`), then — when labels are
allowed — as an address; a falsy parse result falls through. -/
def unionParseYZ (proto : ProtoInstr) (operand : Option String) (allowLabel : Bool) :
    Option InstructionLabeled :=
  match parseRegisterOperand operand with
  | some asRegister =>
    some { opcode := proto.opcode, addressingMode := AddressingMode.REGISTER_REGISTER,
           x := proto.x, y := asRegister, z := none }
  | none =>
    match parseImmediateOperand operand with
    | some asImmediate =>
      if isShort asImmediate then
        some { opcode := proto.opcode, addressingMode := AddressingMode.SHORT_IMMEDIATE,
               x := proto.x, y := asImmediate, z := none }
      else
        some { opcode := proto.opcode, addressingMode := AddressingMode.WORD_IMMEDIATE,
               x := proto.x, y := 0, z := some (ZOperand.imm asImmediate) }
    | none =>
      if allowLabel then
        match parseAddressOperand operand with
        | some asAddress =>
          if zTruthy asAddress then
            some { opcode := proto.opcode, addressingMode := AddressingMode.WORD_IMMEDIATE,
                   x := proto.x, y := 0, z := some asAddress }
          else none
        | none => none
      else none

/-- `parseInstructionParts`: the mnemonic is everything before the first
space; after that, operands are separated by commas; a non-empty trailing
buffer is pushed at the end. -/
def partsAux : List Char → List Char → List String → List String
  | [], buf, acc => if buf.isEmpty then acc else acc ++ [String.mk buf]
  | c :: cs, buf, acc =>
    if acc.isEmpty then
      if c = ' ' then partsAux cs [] (acc ++ [String.mk buf])
      else partsAux cs (buf ++ [c]) acc
    else
      if c = ',' then partsAux cs [] (acc ++ [String.mk buf])
      else partsAux cs (buf ++ [c]) acc

def parseInstructionParts (line : String) : List String := partsAux line.data [] []

/-- `parseInstruction` from `assemble.ts`: dispatch on the upper-cased
mnemonic; operand consumption (`operands.shift()`) is modelled by also
returning the list of unconsumed operands. The opcode constants are those
of the source file (`n2t(0)` for MOV, `n2t(-39)` for ADD, and so on). -/
def parseInstruction (mnemonic : String) (operands : List String) :
    Except String (InstructionLabeled × List String) :=
  if toUpperStr mnemonic = "NOP" then
    .ok ({ opcode := 0, addressingMode := AddressingMode.REGISTER_REGISTER,
           x := 0, y := 0, z := none }, operands)
  else if toUpperStr mnemonic = "MOV" then
    match parseRegisterOperand operands.head? with
    | none => .error "MOV: operand 1 (destination) must be a register"
    | some x =>
      match unionParseYZ { opcode := 0, x := x } operands.tail.head? false with
      | none => .error "MOV: operand 2 (source) must be a register or immediate"
      | some instr => .ok (instr, operands.drop 2)
  else if toUpperStr mnemonic = "ADD" then
    match parseRegisterOperand operands.head? with
    | none => .error "ADD: operand 1 must be a register"
    | some x =>
      match unionParseYZ { opcode := -39, x := x } operands.tail.head? false with
      | none => .error "ADD: operand 2 must be a register or immediate"
      | some instr => .ok (instr, operands.drop 2)
  else if toUpperStr mnemonic = "MUL" then
    match parseRegisterOperand operands.head? with
    | none => .error "MUL: operand 1 must be a register"
    | some x =>
      match unionParseYZ { opcode := -37, x := x } operands.tail.head? false with
      | none => .error "MUL: operand 2 must be a register or immediate"
      | some instr => .ok (instr, operands.drop 2)
  else if toUpperStr mnemonic = "DIV" then
    match parseRegisterOperand operands.head? with
    | none => .error "DIV: operand 1 must be a register"
    | some x =>
      match unionParseYZ { opcode := -36, x := x } operands.tail.head? false with
      | none => .error "DIV: operand 2 must be a register or immediate"
      | some instr => .ok (instr, operands.drop 2)
  else if toUpperStr mnemonic = "STA" then
    match parseRegisterOperand operands.head? with
    | none => .error "STA: operand 1 must be a register"
    | some x =>
      match unionParseYZ { opcode := 2, x := x } operands.tail.head? false with
      | none => .error "STA: operand 2 must be a register or address"
      | some instr => .ok (instr, operands.drop 2)
  else if toUpperStr mnemonic = "LDA" then
    match parseRegisterOperand operands.head? with
    | none => .error "LDA: operand 1 must be a register"
    | some x =>
      match unionParseYZ { opcode := 1, x := x } operands.tail.head? false with
      | none => .error "LDA: operand 2 must be a register or address"
      | some instr => .ok (instr, operands.drop 2)
  else if toUpperStr mnemonic = "JMP" then
    match unionParseYZ { opcode := 36, x := 0 } operands.head? true with
    | none => .error "JMP: operand must be a register or immediate address"
    | some instr => .ok (instr, operands.drop 1)
  else
    .error ("unknown operation '" ++ mnemonic ++ "'")

/-- `assembleOpcodeStr` from `assemble.ts` (not called by `assemble`): the
mnemonic-to-opcode table matching the spec. -/
def assembleOpcodeStr (str : String) : Except String Int :=
  if toUpperStr str = "ADD" then .ok (-13)
  else if toUpperStr str = "ADDC" then .ok (-11)
  else if toUpperStr str = "MUL" then .ok (-10)
  else if toUpperStr str = "DIV" then .ok (-9)
  else if toUpperStr str = "MOD" then .ok (-8)
  else if toUpperStr str = "NEG" then .ok (-7)
  else if toUpperStr str = "MIN" then .ok (-6)
  else if toUpperStr str = "MAX" then .ok (-5)
  else if toUpperStr str = "CON" then .ok (-4)
  else if toUpperStr str = "ANY" then .ok (-3)
  else if toUpperStr str = "RSH" then .ok (-2)
  else if toUpperStr str = "USH" then .ok (-1)
  else if toUpperStr str = "NOP" then .ok 0
  else if toUpperStr str = "MOV" then .ok 1
  else if toUpperStr str = "CMP" then .ok 2
  else if toUpperStr str = "JMP" then .ok 3
  else if toUpperStr str = "BEQ" then .ok 4
  else if toUpperStr str = "BGT" then .ok 5
  else if toUpperStr str = "BLT" then .ok 6
  else if toUpperStr str = "JAL" then .ok 7
  else if toUpperStr str = "LOD" then .ok 8
  else if toUpperStr str = "XOR" then .ok 9
  else .error ("Unknown instruction: " ++ str)

/-! ### The label table (a JS `Map` keyed by strings) -/

abbrev LabelMap := List (String × Int)

def labelHas (m : LabelMap) (k : String) : Bool := m.any (fun p => p.1 = k)

/-- `Map.set`: overwrite in place if present, else append. -/
def labelSet (m : LabelMap) (k : String) (v : Int) : LabelMap :=
  if labelHas m k then m.map (fun p => if p.1 = k then (k, v) else p) else m ++ [(k, v)]

def labelGet (m : LabelMap) (k : String) : Option Int :=
  (m.find? (fun p => p.1 = k)).map (fun p => p.2)

/-! ### Instruction encoding (Instruction.ts, not among the sources) -/

/-- Modelled from the spec: trit codes for the three addressing modes (the
exact assignment is not pinned by the spec; no claim depends on it). -/
def modeCode : AddressingMode → Int
  | AddressingMode.REGISTER_REGISTER => -1
  | AddressingMode.SHORT_IMMEDIATE => 0
  | AddressingMode.WORD_IMMEDIATE => 1

/-- Modelled from the spec: the first instruction word packs opcode,
addressing mode and the operand selectors into sub-fields of one word
(here 4 + 1 + 2 + 2 trits, an injective packing; the spec does not pin the
exact layout and no claim depends on it). -/
def encodeFirstWord (opcode mode x y : Int) : Int := ((opcode * 3 + mode) * 9 + x) * 9 + y

/-- Modelled from the spec: `assembleInstruction` (the Instruction Codec
encoder, from the missing Instruction.ts): fails with `EncodeError` on an
out-of-range operand selector; a label `z` operand is resolved against the
now-complete label table (`UndeclaredLabelError` when never bound); the
second word is returned exactly when the instruction carries a `z` value
(the WORD_IMMEDIATE form). -/
def assembleInstruction (i : InstructionLabeled) (labels : LabelMap) :
    Except String (Int × Option Int) :=
  if i.x < -4 ∨ 4 < i.x ∨ i.y < -4 ∨ 4 < i.y then
    .error "EncodeError: operand selector out of range"
  else
    match i.z with
    | none => .ok (encodeFirstWord i.opcode (modeCode i.addressingMode) i.x i.y, none)
    | some (ZOperand.imm v) =>
      .ok (encodeFirstWord i.opcode (modeCode i.addressingMode) i.x i.y, some v)
    | some (ZOperand.label name) =>
      match labelGet labels name with
      | some a => .ok (encodeFirstWord i.opcode (modeCode i.addressingMode) i.x i.y, some a)
      | none => .error ("Undeclared label: " ++ name)

/-! ### The two passes of `assemble` -/

structure Pass1State where
  address : Int
  labels : LabelMap
  warnings : List String
deriving DecidableEq

/-- One line of pass 1: a label line binds (a copy of) the current cursor
to the name, warning (`console.warn`, collected in `warnings`) when it was
already bound; an instruction line is parsed, leftover operands are an
error, and the cursor advances by one word plus one more when the parsed
the parsed `z` field of the instruction is truthy. -/
def pass1Line (st : Pass1State) (line : String) : Except String Pass1State :=
  if startsDot line then
    .ok { st with
          labels := labelSet st.labels (dropStr line 1) st.address,
          warnings :=
            if labelHas st.labels (dropStr line 1) then
              st.warnings ++ ["label redeclared: " ++ dropStr line 1]
            else st.warnings }
  else
    match parseInstructionParts line with
    | [] => .error "cannot read line"
    | mnemonic :: operands =>
      match parseInstruction mnemonic operands with
      | .error e => .error e
      | .ok (instruction, rest) =>
        if rest.isEmpty then
          .ok { st with
                address :=
                  if zJsTruthy instruction.z then aluAdd (aluAdd st.address 1) 1
                  else aluAdd st.address 1 }
        else .error (mnemonic ++ ": too many operands")

def runPass1 : Pass1State → List String → Except String Pass1State
  | st, [] => .ok st
  | st, line :: rest =>
    match pass1Line st line with
    | .error e => .error e
    | .ok st1 => runPass1 st1 rest

structure Pass2State where
  address : Int
  mem : Memory
  instructions : List (Int × InstructionLabeled)

/-- One line of pass 2: label lines are skipped; an instruction line is
re-parsed independently, encoded against the completed label table, its
first word stored at the cursor, and — when a second word is produced — the
second word stored one word further on. The cursor advances exactly as
many words as were stored. (`instructions[t2n(address)] = instruction`
becomes an association list keyed by the address.) -/
def pass2Line (labels : LabelMap) (st : Pass2State) (line : String) :
    Except String Pass2State :=
  if startsDot line then .ok st
  else
    match parseInstructionParts line with
    | [] => .error "cannot read line"
    | mnemonic :: operands =>
      match parseInstruction mnemonic operands with
      | .error e => .error e
      | .ok (instruction, _) =>
        match assembleInstruction instruction labels with
        | .error e => .error e
        | .ok (w0, w1) =>
          match w1 with
          | none =>
            .ok { address := aluAdd st.address 1,
                  mem := st.mem.store w0 st.address,
                  instructions := st.instructions ++ [(st.address, instruction)] }
          | some w =>
            .ok { address := aluAdd (aluAdd st.address 1) 1,
                  mem := (st.mem.store w0 st.address).store w (aluAdd st.address 1),
                  instructions := st.instructions ++ [(st.address, instruction)] }

def runPass2 (labels : LabelMap) : Pass2State → List String → Except String Pass2State
  | st, [] => .ok st
  | st, line :: rest =>
    match pass2Line labels st line with
    | .error e => .error e
    | .ok st1 => runPass2 labels st1 rest

structure AssembleResult where
  mem : Memory
  labels : LabelMap
  instructions : List (Int × InstructionLabeled)
  warnings : List String

/-- `assemble` on the already-filtered line list: pass 1 from a fresh empty
label map and the zero cursor, then pass 2 from the zero cursor into a
fresh zero `Memory`. -/
def assembleLines (lines : List String) : Except String AssembleResult :=
  match runPass1 { address := 0, labels := [], warnings := [] } lines with
  | .error e => .error e
  | .ok p1 =>
    match runPass2 p1.labels { address := 0, mem := Memory.new, instructions := [] } lines with
    | .error e => .error e
    | .ok p2 =>
      .ok { mem := p2.mem, labels := p1.labels, instructions := p2.instructions,
            warnings := p1.warnings }

/-- `assemble(input)` from `assemble.ts`. -/
def assemble (input : String) : Except String AssembleResult :=
  assembleLines (preprocess input)

/-- Ghost observation of pass 1: the cursor value at the start of each
instruction line, advanced exactly as `pass1Line` advances it. -/
def pass1Trace : Int → List String → List Int
  | _, [] => []
  | addr, line :: rest =>
    if startsDot line then pass1Trace addr rest
    else
      match parseInstructionParts line with
      | [] => []
      | mnemonic :: operands =>
        match parseInstruction mnemonic operands with
        | .error _ => []
        | .ok (instruction, _) =>
          addr :: pass1Trace
            (if zJsTruthy instruction.z then aluAdd (aluAdd addr 1) 1 else aluAdd addr 1) rest

/-- Ghost observation of pass 2: the address at which the
first encoded word of each instruction is stored, advanced exactly as `pass2Line` advances
it. -/
def pass2Trace (labels : LabelMap) : Int → List String → List Int
  | _, [] => []
  | addr, line :: rest =>
    if startsDot line then pass2Trace labels addr rest
    else
      match parseInstructionParts line with
      | [] => []
      | mnemonic :: operands =>
        match parseInstruction mnemonic operands with
        | .error _ => []
        | .ok (instruction, _) =>
          match assembleInstruction instruction labels with
          | .error _ => []
          | .ok (_, w1) =>
            addr :: pass2Trace labels
              (match w1 with
               | some _ => aluAdd (aluAdd addr 1) 1
               | none => aluAdd addr 1) rest

/-- Opcode assigned to a mnemonic by the parser that `assemble` uses, when the
parse succeeds. -/
def parsedOpcode (mnemonic : String) (operands : List String) : Option Int :=
  match parseInstruction mnemonic operands with
  | .ok (i, _) => some i.opcode
  | .error _ => none

/-- The instruction `NOP` parses to. -/
def nopInstruction : InstructionLabeled :=
  { opcode := 0, addressingMode := AddressingMode.REGISTER_REGISTER, x := 0, y := 0, z := none }

/-- The first word `NOP` encodes to. -/
def nopWord : Int := encodeFirstWord 0 (modeCode AddressingMode.REGISTER_REGISTER) 0 0

/-- The instruction `JMP .end` parses to. -/
def jmpEndInstruction : InstructionLabeled :=
  { opcode := 36, addressingMode := AddressingMode.WORD_IMMEDIATE, x := 0, y := 0,
    z := some (ZOperand.label "end") }

/-- The first word `JMP .end` encodes to. -/
def jmpWord : Int := encodeFirstWord 36 (modeCode AddressingMode.WORD_IMMEDIATE) 0 0

theorem Memory.store_blockLength (m : Memory) (v a : Int) :
    (m.store v a).blockLength = m.blockLength := by
  unfold Memory.store
  split <;> rfl

theorem Memory.load_store_same (m : Memory) (v a : Int)
    (ha : 0 ≤ a + 9841 ∧ a + 9841 < (m.blockLength : Int)) :
    (m.store v a).load a = some v := by
  unfold Memory.store Memory.load
  rw [if_pos ha]
  have hlen : ({ m with block := fun j => if (j : Int) = a + 9841 then v else m.block j } :
      Memory).blockLength = m.blockLength := rfl
  rw [hlen, if_pos ha]
  have hcast : (((a + 9841).toNat : Int)) = a + 9841 := Int.toNat_of_nonneg ha.1
  simp [hcast]

theorem Memory.load_store_other (m : Memory) (v a b : Int) (hb : b ≠ a) :
    (m.store v a).load b = m.load b := by
  unfold Memory.store
  split
  · unfold Memory.load
    by_cases hbr : 0 ≤ b + 9841 ∧ b + 9841 < (m.blockLength : Int)
    · rw [if_pos hbr, if_pos hbr]
      have hcast : (((b + 9841).toNat : Int)) = b + 9841 := Int.toNat_of_nonneg hbr.1
      have hne : (((b + 9841).toNat : Int)) ≠ a + 9841 := by
        rw [hcast]; omega
      simp only [if_neg hne]
    · rw [if_neg hbr, if_neg hbr]
  · rfl

/-- C4 counterexample: `store` at the out-of-range address 10000 does not
fail — it silently returns the memory unchanged (the typed-array write is
dropped), and `load` at that address reads an absent cell instead of
raising an error. This refutes the claim that out-of-range accesses fail
with an error. -/
theorem memory_out_of_range_silently_ignored :
    Memory.new.store 5 10000 = Memory.new
    ∧ Memory.new.load 10000 = none
    ∧ Memory.new.load 0 = some 0 := by
  have hc : ¬(0 ≤ (10000 : Int) + 9841 ∧ (10000 : Int) + 9841 < (Memory.new.blockLength : Int)) := by
    have hb : Memory.new.blockLength = 19683 := rfl
    rw [hb]; decide
  refine ⟨?_, ?_, ?_⟩
  · unfold Memory.store
    rw [if_neg hc]
  · unfold Memory.load
    rw [if_neg hc]
  · rfl

/-- C4 (amended): for every address outside [-9841, 9841], `Memory.store`
is a silent no-op (no error, all cells unchanged — the backing typed array
ignores out-of-bounds writes) and `Memory.load` reads an absent cell
(`undefined`, modelled `none`) rather than failing; neither operation
wraps the address around. -/
theorem memory_out_of_range_noop (m : Memory) (v a : Int)
    (hLen : m.blockLength = TRYTE_NUM_VALUES)
    (h : a < -9841 ∨ 9841 < a) :
    m.store v a = m ∧ m.load a = none := by
  have hcond : ¬(0 ≤ a + 9841 ∧ a + 9841 < (m.blockLength : Int)) := by
    rw [hLen]; unfold TRYTE_NUM_VALUES; push_cast; omega
  constructor
  · unfold Memory.store; rw [if_neg hcond]
  · unfold Memory.load; rw [if_neg hcond]

theorem memory_out_of_range_noop_witness :
    (Memory.new.blockLength = TRYTE_NUM_VALUES ∧ ((10000 : Int) < -9841 ∨ (9841 : Int) < 10000))
    ∧ (Memory.new.store 5 10000 = Memory.new ∧ Memory.new.load 10000 = none) :=
  ⟨⟨rfl, by norm_num⟩, memory_out_of_range_noop Memory.new 5 10000 rfl (by norm_num)⟩

/-- C5: storing a representable value `v` at an in-range address `a` and
then loading `a` returns `v`, and loading any other in-range address `b`
returns the same value as before the store. -/
theorem memory_store_load_roundtrip (m : Memory) (v a : Int)
    (hLen : m.blockLength = TRYTE_NUM_VALUES)
    (hv : -9841 ≤ v ∧ v ≤ 9841)
    (ha : -9841 ≤ a ∧ a ≤ 9841) :
    (m.store v a).load a = some v
    ∧ ∀ b : Int, -9841 ≤ b → b ≤ 9841 → b ≠ a → (m.store v a).load b = m.load b := by
  constructor
  · apply Memory.load_store_same
    rw [hLen]; unfold TRYTE_NUM_VALUES; push_cast; omega
  · intro b _ _ hb
    exact Memory.load_store_other m v a b hb

theorem memory_store_load_roundtrip_witness :
    (Memory.new.blockLength = TRYTE_NUM_VALUES
      ∧ (-9841 ≤ (7 : Int) ∧ (7 : Int) ≤ 9841)
      ∧ (-9841 ≤ (3 : Int) ∧ (3 : Int) ≤ 9841))
    ∧ ((Memory.new.store 7 3).load 3 = some 7
      ∧ ∀ b : Int, -9841 ≤ b → b ≤ 9841 → b ≠ 3 → (Memory.new.store 7 3).load b = Memory.new.load b) :=
  ⟨⟨rfl, by norm_num, by norm_num⟩,
    memory_store_load_roundtrip Memory.new 7 3 rfl (by norm_num) (by norm_num)⟩

/-- C10: whatever argument is passed for the `size` parameter of the
constructor, the constructed `Memory` is identical to the default one: the
argument is ignored and the backing array always has `TRYTE_NUM_VALUES`
(19683) zero-initialised entries. -/
theorem memory_constructor_ignores_size (size : Nat) :
    Memory.make size = Memory.make TRYTE_NUM_VALUES
    ∧ (Memory.make size).blockLength = 19683
    ∧ ∀ i : Nat, (Memory.make size).block i = 0 :=
  ⟨rfl, rfl, fun _ => rfl⟩

/-- C1 (code bug): `isShort` is written `n > 4 && n < -4`, a test no
integer satisfies, so the assembler never selects SHORT_IMMEDIATE: the
immediate `oooooooo+` (value 1, magnitude ≤ 4) is parsed with addressing
mode WORD_IMMEDIATE and its instruction occupies two words (the next
instruction sits at address 2), contradicting the claimed
magnitude-≤-4 ⇒ SHORT_IMMEDIATE / one-word boundary. -/
theorem short_immediate_boundary_violated :
    (∀ v : Tryte, isShort v = false)
    ∧ parseInstruction "MOV" ["r0", " oooooooo+"] =
        .ok ({ opcode := 0, addressingMode := AddressingMode.WORD_IMMEDIATE,
               x := -4, y := 0, z := some (ZOperand.imm 1) }, [])
    ∧ pass1Trace 0 ["MOV r0, oooooooo+", "NOP"] = [0, 2] := by
  refine ⟨?_, rfl, by decide⟩
  intro v
  unfold isShort
  by_cases h : v > 4
  · have h2 : ¬(v < -4) := by linarith
    simp [h, h2]
  · simp [h]

/-- C2 (code bug): the opcodes `parseInstruction` (the function `assemble`
actually calls) assigns diverge from the authoritative table of the spec — and
from `assembleOpcodeStr` in the same file, which matches the table exactly:
MOV gets 0 instead of 1, ADD gets -39 instead of -13, MUL gets -37 instead
of -10, DIV gets -36 instead of -9, JMP gets 36 instead of 3, and the
values -39, -37, -36 and 36 lie outside the defined opcode space
[-13, 9]. Only NOP agrees. -/
theorem opcode_assignment_violates_table :
    parsedOpcode "MOV" ["r0", " r1"] = some 0
    ∧ assembleOpcodeStr "MOV" = .ok 1
    ∧ parsedOpcode "ADD" ["r0", " r1"] = some (-39)
    ∧ assembleOpcodeStr "ADD" = .ok (-13)
    ∧ parsedOpcode "MUL" ["r0", " r1"] = some (-37)
    ∧ assembleOpcodeStr "MUL" = .ok (-10)
    ∧ parsedOpcode "DIV" ["r0", " r1"] = some (-36)
    ∧ assembleOpcodeStr "DIV" = .ok (-9)
    ∧ parsedOpcode "JMP" [" r1"] = some 36
    ∧ assembleOpcodeStr "JMP" = .ok 3
    ∧ parsedOpcode "NOP" [] = some 0
    ∧ assembleOpcodeStr "NOP" = .ok 0
    ∧ ¬(-13 ≤ (-39 : Int) ∧ (-39 : Int) ≤ 9)
    ∧ ¬(-13 ≤ (36 : Int) ∧ (36 : Int) ≤ 9) :=
  ⟨rfl, rfl, rfl, rfl, rfl, rfl, rfl, rfl, rfl, rfl, rfl, rfl, by decide, by decide⟩

/-- C6: the embedding of `assemble` is a pure function of the source text —
the source module keeps no state between calls, constructing a fresh
`Memory` and a fresh label `Map` inside each call — so two calls on the
same text return equal program images, label tables, debug instruction
lists and warnings; and assembling the empty text returns exactly the
fresh zero memory and empty label table every call starts from. -/
theorem assemble_deterministic (s : String) (r r' : AssembleResult)
    (h : assemble s = .ok r) (h' : assemble s = .ok r') :
    r.mem = r'.mem ∧ r.labels = r'.labels ∧ r.instructions = r'.instructions
    ∧ r.warnings = r'.warnings
    ∧ assemble "" = .ok { mem := Memory.new, labels := [], instructions := [], warnings := [] } := by
  rw [h] at h'
  cases h'
  exact ⟨rfl, rfl, rfl, rfl, rfl⟩

theorem assemble_deterministic_witness :
    ∃ r : AssembleResult, assemble "NOP" = .ok r ∧
      (r.mem = r.mem ∧ r.labels = r.labels ∧ r.instructions = r.instructions
        ∧ r.warnings = r.warnings
        ∧ assemble "" = .ok { mem := Memory.new, labels := [], instructions := [], warnings := [] }) :=
  ⟨_, rfl, assemble_deterministic "NOP" _ _ rfl rfl⟩

/-- C8: a line whose (upper-cased) mnemonic is none of the supported
operations makes assembly fail with an error naming the unknown operation,
and each supported two-operand instruction whose first operand is not a
valid register token fails with an error naming operand 1 — including the
concrete spec examples `FOO r0, r1` and `MOV r9, r1` run through the
full `assemble` entry point. -/
theorem unknown_mnemonic_and_register_errors (m op1 : String) (ops : List String)
    (hm : toUpperStr m ∉ (["NOP", "MOV", "ADD", "MUL", "DIV", "STA", "LDA", "JMP"] : List String))
    (hr : parseRegisterOperand (some op1) = none) :
    parseInstruction m ops = .error ("unknown operation '" ++ m ++ "'")
    ∧ parseInstruction "MOV" (op1 :: ops) = .error "MOV: operand 1 (destination) must be a register"
    ∧ parseInstruction "ADD" (op1 :: ops) = .error "ADD: operand 1 must be a register"
    ∧ parseInstruction "MUL" (op1 :: ops) = .error "MUL: operand 1 must be a register"
    ∧ parseInstruction "DIV" (op1 :: ops) = .error "DIV: operand 1 must be a register"
    ∧ parseInstruction "STA" (op1 :: ops) = .error "STA: operand 1 must be a register"
    ∧ parseInstruction "LDA" (op1 :: ops) = .error "LDA: operand 1 must be a register"
    ∧ assemble "FOO r0, r1" = .error "unknown operation 'FOO'"
    ∧ assemble "MOV r9, r1" = .error "MOV: operand 1 (destination) must be a register" := by
  have hne : ∀ s : String,
      s ∈ (["NOP", "MOV", "ADD", "MUL", "DIV", "STA", "LDA", "JMP"] : List String) →
      toUpperStr m ≠ s := fun s hs he => hm (he ▸ hs)
  refine ⟨?_, ?_, ?_, ?_, ?_, ?_, ?_, rfl, rfl⟩
  · unfold parseInstruction
    rw [if_neg (hne "NOP" (by simp)), if_neg (hne "MOV" (by simp)),
        if_neg (hne "ADD" (by simp)), if_neg (hne "MUL" (by simp)),
        if_neg (hne "DIV" (by simp)), if_neg (hne "STA" (by simp)),
        if_neg (hne "LDA" (by simp)), if_neg (hne "JMP" (by simp))]
  · have h1 : parseInstruction "MOV" (op1 :: ops) =
        (match parseRegisterOperand (some op1) with
          | none => Except.error "MOV: operand 1 (destination) must be a register"
          | some x =>
            match unionParseYZ { opcode := 0, x := x } ops.head? false with
            | none => Except.error "MOV: operand 2 (source) must be a register or immediate"
            | some instr => Except.ok (instr, (op1 :: ops).drop 2)) := rfl
    rw [h1, hr]
  · have h1 : parseInstruction "ADD" (op1 :: ops) =
        (match parseRegisterOperand (some op1) with
          | none => Except.error "ADD: operand 1 must be a register"
          | some x =>
            match unionParseYZ { opcode := -39, x := x } ops.head? false with
            | none => Except.error "ADD: operand 2 must be a register or immediate"
            | some instr => Except.ok (instr, (op1 :: ops).drop 2)) := rfl
    rw [h1, hr]
  · have h1 : parseInstruction "MUL" (op1 :: ops) =
        (match parseRegisterOperand (some op1) with
          | none => Except.error "MUL: operand 1 must be a register"
          | some x =>
            match unionParseYZ { opcode := -37, x := x } ops.head? false with
            | none => Except.error "MUL: operand 2 must be a register or immediate"
            | some instr => Except.ok (instr, (op1 :: ops).drop 2)) := rfl
    rw [h1, hr]
  · have h1 : parseInstruction "DIV" (op1 :: ops) =
        (match parseRegisterOperand (some op1) with
          | none => Except.error "DIV: operand 1 must be a register"
          | some x =>
            match unionParseYZ { opcode := -36, x := x } ops.head? false with
            | none => Except.error "DIV: operand 2 must be a register or immediate"
            | some instr => Except.ok (instr, (op1 :: ops).drop 2)) := rfl
    rw [h1, hr]
  · have h1 : parseInstruction "STA" (op1 :: ops) =
        (match parseRegisterOperand (some op1) with
          | none => Except.error "STA: operand 1 must be a register"
          | some x =>
            match unionParseYZ { opcode := 2, x := x } ops.head? false with
            | none => Except.error "STA: operand 2 must be a register or address"
            | some instr => Except.ok (instr, (op1 :: ops).drop 2)) := rfl
    rw [h1, hr]
  · have h1 : parseInstruction "LDA" (op1 :: ops) =
        (match parseRegisterOperand (some op1) with
          | none => Except.error "LDA: operand 1 must be a register"
          | some x =>
            match unionParseYZ { opcode := 1, x := x } ops.head? false with
            | none => Except.error "LDA: operand 2 must be a register or address"
            | some instr => Except.ok (instr, (op1 :: ops).drop 2)) := rfl
    rw [h1, hr]

theorem unknown_mnemonic_and_register_errors_witness :
    (toUpperStr "FOO" ∉ (["NOP", "MOV", "ADD", "MUL", "DIV", "STA", "LDA", "JMP"] : List String)
      ∧ parseRegisterOperand (some "r9") = none)
    ∧ (parseInstruction "FOO" [" r1"] = .error ("unknown operation '" ++ "FOO" ++ "'")
    ∧ parseInstruction "MOV" ("r9" :: [" r1"]) = .error "MOV: operand 1 (destination) must be a register"
    ∧ parseInstruction "ADD" ("r9" :: [" r1"]) = .error "ADD: operand 1 must be a register"
    ∧ parseInstruction "MUL" ("r9" :: [" r1"]) = .error "MUL: operand 1 must be a register"
    ∧ parseInstruction "DIV" ("r9" :: [" r1"]) = .error "DIV: operand 1 must be a register"
    ∧ parseInstruction "STA" ("r9" :: [" r1"]) = .error "STA: operand 1 must be a register"
    ∧ parseInstruction "LDA" ("r9" :: [" r1"]) = .error "LDA: operand 1 must be a register"
    ∧ assemble "FOO r0, r1" = .error "unknown operation 'FOO'"
    ∧ assemble "MOV r9, r1" = .error "MOV: operand 1 (destination) must be a register") :=
  ⟨⟨by decide, rfl⟩, unknown_mnemonic_and_register_errors "FOO" "r9" [" r1"] (by decide) rfl⟩

theorem unionParseYZ_z_truthy (proto : ProtoInstr) (operand : Option String) (al : Bool)
    (i : InstructionLabeled) (h : unionParseYZ proto operand al = some i) :
    zJsTruthy i.z = i.z.isSome := by
  unfold unionParseYZ at h
  cases hr : parseRegisterOperand operand with
  | some r =>
    simp only [hr] at h
    cases h
    rfl
  | none =>
    simp only [hr] at h
    cases hi : parseImmediateOperand operand with
    | some v =>
      simp only [hi] at h
      by_cases hs : isShort v = true
      · rw [if_pos hs] at h; cases h; rfl
      · rw [if_neg hs] at h; cases h; rfl
    | none =>
      simp only [hi] at h
      cases al with
      | false => exact Option.noConfusion h
      | true =>
        simp only [if_true] at h
        cases ha : parseAddressOperand operand with
        | none =>
          simp only [ha] at h
          exact Option.noConfusion h
        | some zv =>
          simp only [ha] at h
          by_cases ht : zTruthy zv = true
          · rw [if_pos ht] at h
            cases h
            simp [zJsTruthy, ht]
          · rw [if_neg ht] at h
            exact Option.noConfusion h

theorem parseInstruction_z_truthy (m : String) (ops : List String)
    (pr : InstructionLabeled × List String)
    (h : parseInstruction m ops = .ok pr) :
    zJsTruthy pr.1.z = pr.1.z.isSome := by
  unfold parseInstruction at h
  repeat' split at h
  all_goals try exact Except.noConfusion h
  all_goals injection h with h'
  all_goals subst h'
  all_goals try rfl
  all_goals exact unionParseYZ_z_truthy _ _ _ _ (by assumption)

theorem assembleInstruction_snd_isSome (i : InstructionLabeled) (labels : LabelMap)
    (w : Int × Option Int) (h : assembleInstruction i labels = .ok w) :
    w.2.isSome = i.z.isSome := by
  unfold assembleInstruction at h
  repeat' split at h
  all_goals try exact Except.noConfusion h
  all_goals injection h with h'
  all_goals subst h'
  all_goals simp_all

theorem trace_agree (labels : LabelMap) (lines : List String) :
    ∀ st st' : Pass2State, runPass2 labels st lines = .ok st' →
      pass1Trace st.address lines = pass2Trace labels st.address lines := by
  induction lines with
  | nil => intro st st' _; rfl
  | cons line rest ih =>
    intro st st' h
    have hrun : (match pass2Line labels st line with
        | .error e => (.error e : Except String Pass2State)
        | .ok st1 => runPass2 labels st1 rest) = .ok st' := h
    cases hl : pass2Line labels st line with
    | error e =>
      simp only [hl] at hrun
      exact Except.noConfusion hrun
    | ok st1 =>
      simp only [hl] at hrun
      by_cases hdot : startsDot line = true
      · have hst : st = st1 := by
          have hok : (Except.ok st : Except String Pass2State) = Except.ok st1 := by
            have h2 := hl
            unfold pass2Line at h2
            rwa [if_pos hdot] at h2
          exact Except.ok.inj hok
        subst hst
        have g1 : pass1Trace st.address (line :: rest) = pass1Trace st.address rest := by
          simp only [pass1Trace]
          rw [if_pos hdot]
        have g2 : pass2Trace labels st.address (line :: rest) =
            pass2Trace labels st.address rest := by
          simp only [pass2Trace]
          rw [if_pos hdot]
        rw [g1, g2]
        exact ih st st' hrun
      · unfold pass2Line at hl
        rw [if_neg hdot] at hl
        cases hp : parseInstructionParts line with
        | nil =>
          simp only [hp] at hl
          exact Except.noConfusion hl
        | cons mn ops =>
          simp only [hp] at hl
          cases hparse : parseInstruction mn ops with
          | error e =>
            simp only [hparse] at hl
            exact Except.noConfusion hl
          | ok pr =>
            obtain ⟨instr, unconsumed⟩ := pr
            simp only [hparse] at hl
            cases hasm : assembleInstruction instr labels with
            | error e =>
              simp only [hasm] at hl
              exact Except.noConfusion hl
            | ok w =>
              obtain ⟨w0, w1⟩ := w
              simp only [hasm] at hl
              have hzw : w1.isSome = zJsTruthy instr.z := by
                have h1 := assembleInstruction_snd_isSome instr labels (w0, w1) hasm
                have h2 := parseInstruction_z_truthy mn ops (instr, unconsumed) hparse
                rw [h2]
                exact h1
              cases w1 with
              | none =>
                have hst1 : st1 = { address := aluAdd st.address 1,
                                    mem := st.mem.store w0 st.address,
                                    instructions := st.instructions ++ [(st.address, instr)] } :=
                  (Except.ok.inj hl).symm
                have hz : zJsTruthy instr.z = false := by rw [← hzw]; rfl
                have g1 : pass1Trace st.address (line :: rest) =
                    st.address :: pass1Trace (aluAdd st.address 1) rest := by
                  simp only [pass1Trace]
                  rw [if_neg hdot]
                  simp only [hp, hparse, hz, Bool.false_eq_true, if_false]
                have g2 : pass2Trace labels st.address (line :: rest) =
                    st.address :: pass2Trace labels (aluAdd st.address 1) rest := by
                  simp only [pass2Trace]
                  rw [if_neg hdot]
                  simp only [hp, hparse, hasm]
                rw [g1, g2]
                have htail := ih st1 st' hrun
                rw [hst1] at htail
                exact congrArg (List.cons st.address) htail
              | some wv =>
                have hst1 : st1 = { address := aluAdd (aluAdd st.address 1) 1,
                                    mem := (st.mem.store w0 st.address).store wv (aluAdd st.address 1),
                                    instructions := st.instructions ++ [(st.address, instr)] } :=
                  (Except.ok.inj hl).symm
                have hz : zJsTruthy instr.z = true := by rw [← hzw]; rfl
                have g1 : pass1Trace st.address (line :: rest) =
                    st.address :: pass1Trace (aluAdd (aluAdd st.address 1) 1) rest := by
                  simp only [pass1Trace]
                  rw [if_neg hdot]
                  simp only [hp, hparse, hz, if_true]
                have g2 : pass2Trace labels st.address (line :: rest) =
                    st.address :: pass2Trace labels (aluAdd (aluAdd st.address 1) 1) rest := by
                  simp only [pass2Trace]
                  rw [if_neg hdot]
                  simp only [hp, hparse, hasm]
                rw [g1, g2]
                have htail := ih st1 st' hrun
                rw [hst1] at htail
                exact congrArg (List.cons st.address) htail

/-- C3: for every source program that assembles without error, the pass-1
cursor trace over the instruction lines — one word per instruction plus one
more exactly when the parsed instruction carries a (truthy) second-word
operand — coincides with the trace of addresses at which pass 2 stores
the first encoded word of each instruction. -/
theorem two_pass_agreement (lines : List String) (r : AssembleResult)
    (h : assembleLines lines = .ok r) :
    pass1Trace 0 lines = pass2Trace r.labels 0 lines := by
  unfold assembleLines at h
  cases h1 : runPass1 { address := 0, labels := [], warnings := [] } lines with
  | error e =>
    simp only [h1] at h
    exact Except.noConfusion h
  | ok p1 =>
    simp only [h1] at h
    cases h2 : runPass2 p1.labels { address := 0, mem := Memory.new, instructions := [] } lines with
    | error e =>
      simp only [h2] at h
      exact Except.noConfusion h
    | ok p2 =>
      simp only [h2] at h
      have hlab : r.labels = p1.labels := by
        have hr := (Except.ok.inj h).symm
        rw [hr]
      rw [hlab]
      exact trace_agree p1.labels lines { address := 0, mem := Memory.new, instructions := [] }
        p2 h2

theorem two_pass_agreement_witness :
    ∃ r : AssembleResult, assembleLines ["JMP .end", "MOV r0, r1", ".end"] = .ok r ∧
      pass1Trace 0 ["JMP .end", "MOV r0, r1", ".end"] =
        pass2Trace r.labels 0 ["JMP .end", "MOV r0, r1", ".end"] :=
  ⟨_, rfl, two_pass_agreement ["JMP .end", "MOV r0, r1", ".end"] _ rfl⟩

theorem aluAdd_one (a : Int) (h0 : -9841 ≤ a) (h1 : a + 1 ≤ 9841) : aluAdd a 1 = a + 1 := by
  unfold aluAdd
  have hmod : (a + 1 + 9841).emod 19683 = a + 1 + 9841 :=
    Int.emod_eq_of_lt (by omega) (by omega)
  rw [hmod]
  ring

theorem runPass1_append (xs ys : List String) :
    ∀ st, runPass1 st (xs ++ ys) =
      match runPass1 st xs with
      | .error e => .error e
      | .ok st1 => runPass1 st1 ys := by
  induction xs with
  | nil => intro st; rfl
  | cons x xs ih =>
    intro st
    cases hl : pass1Line st x with
    | error e => simp only [List.cons_append, runPass1, hl]
    | ok st1 =>
      simp only [List.cons_append, runPass1, hl]
      exact ih st1

theorem runPass2_append (labels : LabelMap) (xs ys : List String) :
    ∀ st, runPass2 labels st (xs ++ ys) =
      match runPass2 labels st xs with
      | .error e => .error e
      | .ok st1 => runPass2 labels st1 ys := by
  induction xs with
  | nil => intro st; rfl
  | cons x xs ih =>
    intro st
    cases hl : pass2Line labels st x with
    | error e => simp only [List.cons_append, runPass2, hl]
    | ok st1 =>
      simp only [List.cons_append, runPass2, hl]
      exact ih st1

theorem pass1Line_nop (st : Pass1State) :
    pass1Line st "NOP" = .ok { st with address := aluAdd st.address 1 } := rfl

theorem pass2Line_nop (labels : LabelMap) (st : Pass2State) :
    pass2Line labels st "NOP" =
      .ok { address := aluAdd st.address 1,
            mem := st.mem.store nopWord st.address,
            instructions := st.instructions ++ [(st.address, nopInstruction)] } := rfl

theorem runPass1_nops (k : Nat) :
    ∀ st : Pass1State, 0 ≤ st.address → st.address + (k : Int) ≤ 9841 →
      runPass1 st (List.replicate k "NOP") = .ok { st with address := st.address + (k : Int) } := by
  induction k with
  | zero =>
    intro st h0 h1
    have heq : ({ st with address := st.address + ((0 : Nat) : Int) } : Pass1State) = st := by
      cases st with
      | mk a l w => simp
    rw [heq]
    rfl
  | succ k ih =>
    intro st h0 h1
    have hadd : aluAdd st.address 1 = st.address + 1 := aluAdd_one st.address (by omega) (by omega)
    have hih := ih { st with address := st.address + 1 }
      (by show (0 : Int) ≤ st.address + 1; omega)
      (by show st.address + 1 + (k : Int) ≤ 9841; omega)
    rw [List.replicate_succ]
    simp only [runPass1, pass1Line_nop, hadd]
    rw [hih]
    have harith : st.address + 1 + (k : Int) = st.address + ((k + 1 : Nat) : Int) := by
      push_cast; ring
    rw [harith]

theorem runPass2_nops (labels : LabelMap) (k : Nat) :
    ∀ st : Pass2State, 0 ≤ st.address → st.address + (k : Int) ≤ 9841 →
      ∃ st', runPass2 labels st (List.replicate k "NOP") = .ok st'
        ∧ st'.address = st.address + (k : Int)
        ∧ st'.mem.blockLength = st.mem.blockLength
        ∧ ∀ b : Int, b < st.address → st'.mem.load b = st.mem.load b := by
  induction k with
  | zero =>
    intro st h0 h1
    exact ⟨st, rfl, by simp, rfl, fun b _ => rfl⟩
  | succ k ih =>
    intro st h0 h1
    have hadd : aluAdd st.address 1 = st.address + 1 := aluAdd_one st.address (by omega) (by omega)
    obtain ⟨st', hrun, haddr, hlen, hload⟩ :=
      ih { address := st.address + 1, mem := st.mem.store nopWord st.address,
           instructions := st.instructions ++ [(st.address, nopInstruction)] }
        (by show (0 : Int) ≤ st.address + 1; omega)
        (by show st.address + 1 + (k : Int) ≤ 9841; omega)
    refine ⟨st', ?_, ?_, ?_, ?_⟩
    · rw [List.replicate_succ]
      simp only [runPass2, pass2Line_nop, hadd]
      exact hrun
    · rw [haddr]
      show st.address + 1 + (k : Int) = st.address + ((k + 1 : Nat) : Int)
      push_cast; ring
    · rw [hlen]
      show (st.mem.store nopWord st.address).blockLength = st.mem.blockLength
      exact Memory.store_blockLength st.mem nopWord st.address
    · intro b hb
      rw [hload b (by show b < st.address + 1; omega)]
      show (st.mem.store nopWord st.address).load b = st.mem.load b
      exact Memory.load_store_other st.mem nopWord st.address b (by omega)

theorem pass1Line_jmp_end (a : Int) (l : LabelMap) (w : List String) :
    pass1Line { address := a, labels := l, warnings := w } "JMP .end" =
      .ok { address := aluAdd (aluAdd a 1) 1, labels := l, warnings := w } := rfl

theorem pass1Line_end_fresh (a : Int) (w : List String) :
    pass1Line { address := a, labels := [], warnings := w } ".end" =
      .ok { address := a, labels := [("end", a)], warnings := w } := rfl

theorem pass2Line_dot (labels : LabelMap) (st : Pass2State) :
    pass2Line labels st ".end" = .ok st := rfl

theorem pass2Line_jmp_end (labels : LabelMap) (A : Int) (st : Pass2State)
    (h : labelGet labels "end" = some A) :
    pass2Line labels st "JMP .end" =
      .ok { address := aluAdd (aluAdd st.address 1) 1,
            mem := (st.mem.store jmpWord st.address).store A (aluAdd st.address 1),
            instructions := st.instructions ++ [(st.address, jmpEndInstruction)] } := by
  have hasm : assembleInstruction jmpEndInstruction labels = .ok (jmpWord, some A) := by
    unfold assembleInstruction
    rw [if_neg (by decide)]
    show (match labelGet labels "end" with
          | some a => Except.ok (jmpWord, some a)
          | none => Except.error ("Undeclared label: " ++ "end")) = .ok (jmpWord, some A)
    rw [h]
  have hline : pass2Line labels st "JMP .end" =
      (match assembleInstruction jmpEndInstruction labels with
        | .error e => .error e
        | .ok (w0, w1) =>
          match w1 with
          | none => Except.ok { address := aluAdd st.address 1,
                                mem := st.mem.store w0 st.address,
                                instructions := st.instructions ++ [(st.address, jmpEndInstruction)] }
          | some w => Except.ok { address := aluAdd (aluAdd st.address 1) 1,
                                  mem := (st.mem.store w0 st.address).store w (aluAdd st.address 1),
                                  instructions := st.instructions ++ [(st.address, jmpEndInstruction)] }) := rfl
  rw [hline, hasm]

theorem pass1Line_x_fresh (a : Int) (w : List String) :
    pass1Line { address := a, labels := [], warnings := w } ".x" =
      .ok { address := a, labels := [("x", a)], warnings := w } := rfl

theorem pass1Line_x_redecl (a b : Int) (w : List String) :
    pass1Line { address := a, labels := [("x", b)], warnings := w } ".x" =
      .ok { address := a, labels := [("x", a)], warnings := w ++ ["label redeclared: x"] } := rfl

theorem pass2Line_dot_x (labels : LabelMap) (st : Pass2State) :
    pass2Line labels st ".x" = .ok st := rfl

/-- C7: for every program of the shape `m` NOPs, then `JMP .end`, then `n`
filler NOPs, then the declaration `.end` (the jump referencing the label
before it is declared), assembly succeeds; pass 1 binds `.end` to address
m + 2 + n, and the second word pass 2 stores for the jump (at address
m + 1) is exactly that bound address. -/
theorem forward_reference_resolved (m n : Nat) (h : m + n ≤ 9839) :
    ∃ r : AssembleResult,
      assembleLines (List.replicate m "NOP" ++ "JMP .end" :: (List.replicate n "NOP" ++ [".end"]))
        = .ok r
      ∧ labelGet r.labels "end" = some ((m : Int) + 2 + (n : Int))
      ∧ r.mem.load ((m : Int) + 1) = some ((m : Int) + 2 + (n : Int)) := by
  have ea1 : aluAdd ((m : Int)) 1 = (m : Int) + 1 := aluAdd_one _ (by omega) (by omega)
  have ea2 : aluAdd ((m : Int) + 1) 1 = (m : Int) + 2 := aluAdd_one _ (by omega) (by omega)
  -- pass 1 over the leading NOPs
  have h1 := runPass1_nops m { address := 0, labels := [], warnings := [] }
    (by norm_num) (by show (0 : Int) + (m : Int) ≤ 9841; omega)
  simp only [zero_add] at h1
  -- pass 1 over the rest
  have h2 : runPass1 { address := (m : Int), labels := [], warnings := [] }
      ("JMP .end" :: (List.replicate n "NOP" ++ [".end"]))
      = .ok { address := (m : Int) + 2 + (n : Int),
              labels := [("end", (m : Int) + 2 + (n : Int))], warnings := [] } := by
    have hj : pass1Line { address := (m : Int), labels := [], warnings := [] } "JMP .end"
        = .ok { address := (m : Int) + 2, labels := [], warnings := [] } := by
      rw [pass1Line_jmp_end, ea1, ea2]
    simp only [runPass1, hj]
    rw [runPass1_append]
    have h3 := runPass1_nops n { address := (m : Int) + 2, labels := [], warnings := [] }
      (by show (0 : Int) ≤ (m : Int) + 2; omega)
      (by show (m : Int) + 2 + (n : Int) ≤ 9841; omega)
    simp only [h3]
    simp only [runPass1, pass1Line_end_fresh]
  have hP1 : runPass1 { address := 0, labels := [], warnings := [] }
      (List.replicate m "NOP" ++ "JMP .end" :: (List.replicate n "NOP" ++ [".end"]))
      = .ok { address := (m : Int) + 2 + (n : Int),
              labels := [("end", (m : Int) + 2 + (n : Int))], warnings := [] } := by
    rw [runPass1_append]
    simp only [h1]
    exact h2
  -- pass 2 over the leading NOPs
  obtain ⟨st1, hq1, hq1a, hq1len, -⟩ :=
    runPass2_nops [("end", (m : Int) + 2 + (n : Int))] m
      { address := 0, mem := Memory.new, instructions := [] }
      (by norm_num) (by show (0 : Int) + (m : Int) ≤ 9841; omega)
  have hq1a2 : st1.address = (m : Int) := by
    rw [hq1a]
    show (0 : Int) + (m : Int) = (m : Int)
    ring
  have hlen1 : st1.mem.blockLength = 19683 := by rw [hq1len]; rfl
  -- pass 2 over the JMP
  have hjm : pass2Line [("end", (m : Int) + 2 + (n : Int))] st1 "JMP .end"
      = .ok { address := (m : Int) + 2,
              mem := (st1.mem.store jmpWord (m : Int)).store
                ((m : Int) + 2 + (n : Int)) ((m : Int) + 1),
              instructions := st1.instructions ++ [((m : Int), jmpEndInstruction)] } := by
    have hb := pass2Line_jmp_end [("end", (m : Int) + 2 + (n : Int))]
      ((m : Int) + 2 + (n : Int)) st1 rfl
    rw [hq1a2, ea1, ea2] at hb
    exact hb
  -- pass 2 over the trailing NOPs
  obtain ⟨st3, hq3, hq3a, hq3len, hq3load⟩ :=
    runPass2_nops [("end", (m : Int) + 2 + (n : Int))] n
      { address := (m : Int) + 2,
        mem := (st1.mem.store jmpWord (m : Int)).store
          ((m : Int) + 2 + (n : Int)) ((m : Int) + 1),
        instructions := st1.instructions ++ [((m : Int), jmpEndInstruction)] }
      (by show (0 : Int) ≤ (m : Int) + 2; omega)
      (by show (m : Int) + 2 + (n : Int) ≤ 9841; omega)
  have hP2 : runPass2 [("end", (m : Int) + 2 + (n : Int))]
      { address := 0, mem := Memory.new, instructions := [] }
      (List.replicate m "NOP" ++ "JMP .end" :: (List.replicate n "NOP" ++ [".end"]))
      = .ok st3 := by
    rw [runPass2_append]
    simp only [hq1]
    simp only [runPass2, hjm]
    rw [runPass2_append]
    simp only [hq3]
    simp only [runPass2, pass2Line_dot]
  refine ⟨{ mem := st3.mem, labels := [("end", (m : Int) + 2 + (n : Int))],
            instructions := st3.instructions, warnings := [] }, ?_, rfl, ?_⟩
  · unfold assembleLines
    simp only [hP1]
    simp only [hP2]
  · have hload := hq3load ((m : Int) + 1) (by show (m : Int) + 1 < (m : Int) + 2; omega)
    show st3.mem.load ((m : Int) + 1) = some ((m : Int) + 2 + (n : Int))
    rw [hload]
    show ((st1.mem.store jmpWord (m : Int)).store
        ((m : Int) + 2 + (n : Int)) ((m : Int) + 1)).load ((m : Int) + 1)
      = some ((m : Int) + 2 + (n : Int))
    apply Memory.load_store_same
    constructor
    · omega
    · rw [Memory.store_blockLength, hlen1]
      push_cast
      omega

theorem forward_reference_resolved_witness :
    (1 + 3 ≤ 9839)
    ∧ ∃ r : AssembleResult,
      assembleLines (List.replicate 1 "NOP" ++ "JMP .end" :: (List.replicate 3 "NOP" ++ [".end"]))
        = .ok r
      ∧ labelGet r.labels "end" = some (((1 : Nat) : Int) + 2 + ((3 : Nat) : Int))
      ∧ r.mem.load (((1 : Nat) : Int) + 1) = some (((1 : Nat) : Int) + 2 + ((3 : Nat) : Int)) :=
  ⟨by norm_num, forward_reference_resolved 1 3 (by norm_num)⟩

/-- C9: a program declaring `.x`, then `n` NOPs, then declaring `.x` again
does not fail to assemble: the redeclaration produces exactly the one
non-fatal warning and the label table binds `x` to the address of the
last declaration (n, the cursor value at the second `.x`). -/
theorem label_redeclaration_last_wins (n : Nat) (h : n ≤ 9841) :
    ∃ r : AssembleResult,
      assembleLines (".x" :: (List.replicate n "NOP" ++ [".x"])) = .ok r
      ∧ labelGet r.labels "x" = some ((n : Int))
      ∧ r.warnings = ["label redeclared: x"] := by
  -- pass 1
  have h1 := runPass1_nops n { address := 0, labels := [("x", 0)], warnings := [] }
    (by norm_num) (by show (0 : Int) + (n : Int) ≤ 9841; omega)
  simp only [zero_add] at h1
  have hP1 : runPass1 { address := 0, labels := [], warnings := [] }
      (".x" :: (List.replicate n "NOP" ++ [".x"]))
      = .ok { address := (n : Int), labels := [("x", (n : Int))],
              warnings := ["label redeclared: x"] } := by
    simp only [runPass1, pass1Line_x_fresh]
    rw [runPass1_append]
    simp only [h1]
    simp only [runPass1, pass1Line_x_redecl, List.nil_append]
  -- pass 2
  obtain ⟨st2, hq2, hq2a, hq2len, -⟩ :=
    runPass2_nops [("x", (n : Int))] n { address := 0, mem := Memory.new, instructions := [] }
      (by norm_num) (by show (0 : Int) + (n : Int) ≤ 9841; omega)
  have hP2 : runPass2 [("x", (n : Int))] { address := 0, mem := Memory.new, instructions := [] }
      (".x" :: (List.replicate n "NOP" ++ [".x"])) = .ok st2 := by
    simp only [runPass2, pass2Line_dot_x]
    rw [runPass2_append]
    simp only [hq2]
    simp only [runPass2, pass2Line_dot_x]
  refine ⟨{ mem := st2.mem, labels := [("x", (n : Int))],
            instructions := st2.instructions, warnings := ["label redeclared: x"] }, ?_, rfl, rfl⟩
  unfold assembleLines
  simp only [hP1]
  simp only [hP2]

theorem label_redeclaration_last_wins_witness :
    (2 ≤ 9841)
    ∧ ∃ r : AssembleResult,
      assembleLines (".x" :: (List.replicate 2 "NOP" ++ [".x"])) = .ok r
      ∧ labelGet r.labels "x" = some (((2 : Nat) : Int))
      ∧ r.warnings = ["label redeclared: x"] :=
  ⟨by norm_num, label_redeclaration_last_wins 2 (by norm_num)⟩

end Vine
